import Mathlib

/-!
Shallow embedding of the scout-bandit repository (two client variants):
the salon/spreadsheet variant (loadData, toggleFavorite, sortSalons,
applyFilterAndRender, getSalonId, isFavorited, parseGapiError) and the
AI lead-generation variant (escapeHTML, convertToCsv, filterAndRenderResults,
getBusinessId).  Records are string-valued property maps; JS objects are
modeled as association lists with in-place overwrite; numbers appearing in
the sort comparator are modeled as exact decimals (mantissa over a power
of ten).  Browser/host functions that the code merely invokes
(localeCompare, the DOM, the network) are abstracted as parameters or as
explicit event inputs.
-/

/-- JS object property assignment on a string-keyed association list:
overwrites the value in place when the key exists, appends otherwise. -/
def jsSet {α : Type} : List (String × α) → String → α → List (String × α)
  | [], k, v => [(k, v)]
  | (k0, v0) :: rest, k, v =>
      if k0 = k then (k, v) :: rest else (k0, v0) :: jsSet rest k v

/-- JS property read on a string-keyed association list (none = undefined). -/
def jsGet {α : Type} (fields : List (String × α)) (k : String) : Option α :=
  (fields.find? (fun p => p.1 = k)).map (fun p => p.2)

/-- JS delete / assignment of undefined: drops the (first) binding of the key. -/
def removeKey {α : Type} : List (String × α) → String → List (String × α)
  | [], _ => []
  | (k0, v0) :: rest, k =>
      if k0 = k then rest else (k0, v0) :: removeKey rest k

/-- Prefix test on character lists (helper for substring containment). -/
def listStarts : List Char → List Char → Bool
  | [], _ => true
  | _ :: _, [] => false
  | a :: as, b :: bs => a = b && listStarts as bs

/-- Contiguous-occurrence test on character lists. -/
def listContains (pat : List Char) : List Char → Bool
  | [] => pat.isEmpty
  | c :: rest => listStarts pat (c :: rest) || listContains pat rest

/-- Model of JS String.prototype.includes: strContains s pat = s.includes(pat). -/
def strContains (s pat : String) : Bool :=
  listContains pat.data s.data

/-- ASCII upper-casing of one character (model of toUpperCase on the ASCII
range the sheet data and literals use). -/
def asciiUpperChar (c : Char) : Char :=
  if 97 ≤ c.toNat && c.toNat ≤ 122 then Char.ofNat (c.toNat - 32) else c

/-- ASCII lower-casing of one character (model of toLowerCase likewise). -/
def asciiLowerChar (c : Char) : Char :=
  if 65 ≤ c.toNat && c.toNat ≤ 90 then Char.ofNat (c.toNat + 32) else c

/-- Model of String.prototype.toUpperCase restricted to ASCII case mapping. -/
def jsToUpper (s : String) : String :=
  String.mk (s.data.map asciiUpperChar)

/-- Model of String.prototype.toLowerCase restricted to ASCII case mapping. -/
def jsToLower (s : String) : String :=
  String.mk (s.data.map asciiLowerChar)

/-- ASCII whitespace test (model of the characters trim strips). -/
def wsChar (c : Char) : Bool :=
  c = Char.ofNat 32 || (9 ≤ c.toNat && c.toNat ≤ 13)

/-- Model of String.prototype.trim: strips leading and trailing whitespace. -/
def jsTrim (s : String) : String :=
  String.mk (((s.data.dropWhile wsChar).reverse.dropWhile wsChar).reverse)

/-- Lower-case hexadecimal digit (JSON string escapes). -/
def hexDigitLower (n : Nat) : Char :=
  ("0123456789abcdef".data).getD n (Char.ofNat 48)

/-- Upper-case hexadecimal digit (percent-encoding). -/
def hexDigitUpper (n : Nat) : Char :=
  ("0123456789ABCDEF".data).getD n (Char.ofNat 48)

/-- Escape of a single character inside a JSON string literal exactly as
JSON.stringify renders it (quote, backslash, the short control escapes,
and u-escapes for the remaining control characters). -/
def jsonEscapeChar (c : Char) : List Char :=
  if c = Char.ofNat 34 then [Char.ofNat 92, Char.ofNat 34]
  else if c = Char.ofNat 92 then [Char.ofNat 92, Char.ofNat 92]
  else if c = Char.ofNat 8 then [Char.ofNat 92, Char.ofNat 98]
  else if c = Char.ofNat 9 then [Char.ofNat 92, Char.ofNat 116]
  else if c = Char.ofNat 10 then [Char.ofNat 92, Char.ofNat 110]
  else if c = Char.ofNat 12 then [Char.ofNat 92, Char.ofNat 102]
  else if c = Char.ofNat 13 then [Char.ofNat 92, Char.ofNat 114]
  else if c.toNat < 32 then
    [Char.ofNat 92, Char.ofNat 117, Char.ofNat 48, Char.ofNat 48,
     hexDigitLower (c.toNat / 16), hexDigitLower (c.toNat % 16)]
  else [c]

/-- JSON.stringify of a string value. -/
def jsonString (s : String) : String :=
  String.mk (Char.ofNat 34 :: (List.flatten (s.data.map jsonEscapeChar) ++ [Char.ofNat 34]))

/-- JSON.stringify of an array of strings. -/
def jsonStringArray (xs : List String) : String :=
  "[" ++ String.intercalate "," (xs.map jsonString) ++ "]"

/-- JSON.stringify of the raw fetched rows (array of arrays of cell strings);
this is the canonical serialization loadData compares against lastDataState. -/
def serializeRows (rows : List (List String)) : String :=
  "[" ++ String.intercalate "," (rows.map jsonStringArray) ++ "]"

/-- A salon record: the string-cell property map built by loadData plus the
numeric rowIndex property (none for records not backed by a sheet row). -/
structure Salon where
  rowIndex : Option Nat
  fields : List (String × String)
deriving DecidableEq

/-- Property read on a salon record. -/
def Salon.get (s : Salon) (k : String) : Option String :=
  jsGet s.fields k

/-- Property read defaulting a missing field to the empty string
(the a[key] ?? pattern of the comparator and the template reads). -/
def Salon.getD (s : Salon) (k : String) : String :=
  (s.get k).getD ""

/-- JS assignment salon.favorite = x where x is a string or the captured
prior value; assigning undefined (none) is modeled as dropping the key,
which is observationally equal for the truthiness tests and serializations
the program performs on it. -/
def Salon.setFavorite (s : Salon) : Option String → Salon
  | some v => { s with fields := jsSet s.fields "favorite" v }
  | none => { s with fields := removeKey s.fields "favorite" }

/-- One record per data row, mirroring the rows.map body of loadData:
start from the rowIndex property (index + 2 for the header row and 1-based
counting) and assign salon[header.toLowerCase()] = row[i] or the empty
string.  A missing cell and an empty cell both yield the empty string,
exactly as row[i] with the falsy-or does. -/
def normalizeRow (headers : List String) (row : List String) (index : Nat) : Salon :=
  { rowIndex := some (index + 2)
    fields := (headers.enum).foldl
      (fun acc p => jsSet acc (jsToLower p.2) (row.getD p.1 "")) [] }

/-- The rows.map of loadData over all data rows. -/
def normalizeRows (headers : List String) (rows : List (List String)) : List Salon :=
  (rows.enum).map (fun p => normalizeRow headers p.2 p.1)

/-- Character of the base64 alphabet. -/
def b64Char (n : Nat) : Char :=
  ("ABCDEFGHIJKLMNOPQRSTUVWXYZabcdefghijklmnopqrstuvwxyz0123456789+/".data).getD
    n (Char.ofNat 65)

/-- Base64 encoding of a byte list with padding, as window.btoa produces. -/
def b64Encode : List Nat → List Char
  | [] => []
  | [b0] =>
      [b64Char (b0 / 4), b64Char (b0 % 4 * 16), Char.ofNat 61, Char.ofNat 61]
  | [b0, b1] =>
      [b64Char (b0 / 4), b64Char (b0 % 4 * 16 + b1 / 16),
       b64Char (b1 % 16 * 4), Char.ofNat 61]
  | b0 :: b1 :: b2 :: rest =>
      b64Char (b0 / 4) :: b64Char (b0 % 4 * 16 + b1 / 16) ::
      b64Char (b1 % 16 * 4 + b2 / 64) :: b64Char (b2 % 64) :: b64Encode rest

/-- Model of window.btoa: defined (some) exactly on strings whose code
points all fit in one byte; none models the InvalidCharacterError btoa
throws on any code point above U+00FF. -/
def btoa (s : String) : Option String :=
  if s.data.all (fun c => c.toNat ≤ 255) then
    some (String.mk (b64Encode (s.data.map Char.toNat)))
  else none

/-- Embedding of getSalonId = btoa(salon.name + salon.address); none models
the btoa exception.  A missing name or address field is modeled as the
empty string (the records the program feeds in always carry both). -/
def getSalonId (salon : Salon) : Option String :=
  btoa (salon.getD "name" ++ salon.getD "address")

/-- Embedding of isFavorited: the favorite property, when truthy, is
upper-cased and compared with the TRUE literal; a falsy value (missing
field or empty string) counts as FALSE. -/
def isFavorited (salon : Salon) : Bool :=
  match salon.get "favorite" with
  | none => false
  | some v => if v = "" then false else jsToUpper v = "TRUE"

/-- A backend (GAPI) request error: either a structured API error carrying
err.result.error.status and .message (an absent message is modeled as the
empty string, which is falsy exactly like undefined under the message-or
fallback), or anything else. -/
inductive GapiError where
  | api (status : String) (message : String)
  | nonApi
deriving DecidableEq

/-- Embedding of parseGapiError: the status switch with its three known
cases, the message-or-unknown default, and the catch-all for non-API
errors. -/
def parseGapiError : GapiError → String
  | .api status message =>
      if status = "NOT_FOUND" then
        "The Google Sheet could not be found. Please check the URL or ID and make sure it\x27s correct."
      else if status = "PERMISSION_DENIED" then
        "You do not have permission to access this Google Sheet. Please check the sheet\x27s sharing settings and ensure you are signed in with the correct Google account."
      else if status = "RESOURCE_EXHAUSTED" then
        "The app has made too many requests to Google Sheets. Please wait a moment and try again later."
      else if message = "" then
        "An unknown error occurred while communicating with Google Sheets."
      else message
  | .nonApi =>
      "An unexpected error occurred. Please check the console for more details."

/-- The status test of the loadData catch block: NOT_FOUND and
PERMISSION_DENIED stop the polling loop. -/
def isFatal : GapiError → Bool
  | .api status _ => status = "NOT_FOUND" || status = "PERMISSION_DENIED"
  | .nonApi => false

/-- Sort direction of the salon list. -/
inductive Direction where
  | asc
  | desc
deriving DecidableEq

/-- The +1 / -1 multiplier dir of sortSalons. -/
def dirInt : Direction → Int
  | .asc => 1
  | .desc => -1

/-- A comparator operand after the TRUE/FALSE-string coercion step of
sortSalons: either the boolean it was converted to or the original string. -/
inductive SortVal where
  | b (v : Bool)
  | s (v : String)
deriving DecidableEq

/-- The boolean-like-string coercion at the top of the sortSalons
comparator. -/
def coerceSortVal (v : String) : SortVal :=
  if jsToUpper v = "TRUE" then .b true
  else if jsToUpper v = "FALSE" then .b false
  else .s v

/-- JS toString of a comparator operand (booleans print true/false). -/
def SortVal.toStr : SortVal → String
  | .b true => "true"
  | .b false => "false"
  | .s v => v

/-- ASCII decimal digit test. -/
def isDigitChar (c : Char) : Bool :=
  48 ≤ c.toNat && c.toNat ≤ 57

/-- Splits the longest digit prefix off a character list. -/
def takeDigits : List Char → List Char × List Char
  | [] => ([], [])
  | c :: rest =>
      if isDigitChar c then
        let p := takeDigits rest
        (c :: p.1, p.2)
      else ([], c :: rest)

/-- Numeric value of a digit list. -/
def digitsVal (ds : List Char) : Nat :=
  ds.foldl (fun acc c => acc * 10 + (c.toNat - 48)) 0

/-- Skips leading whitespace, as parseFloat does before scanning. -/
def skipWs : List Char → List Char
  | [] => []
  | c :: rest =>
      if c = Char.ofNat 32 || (9 ≤ c.toNat && c.toNat ≤ 13) then skipWs rest
      else c :: rest

/-- Model of JS parseFloat: scans the longest decimal-literal prefix
(optional sign, digits, optional fraction, optional exponent) and returns
its exact value as a pair (m, sc) denoting m / 10 ^ sc; none models NaN
(no digit could be scanned).  Restrictions of the model: the Infinity
literals and IEEE-754 rounding are not modeled, so the value is the exact
decimal; this is adequate for the literals reasoned about here. -/
def jsParseFloat (str : String) : Option (Int × Nat) :=
  let cs0 := skipWs str.data
  let sgn : Int :=
    match cs0 with
    | c :: _ => if c = Char.ofNat 45 then -1 else 1
    | [] => 1
  let cs1 :=
    match cs0 with
    | c :: rest =>
        if c = Char.ofNat 45 || c = Char.ofNat 43 then rest else c :: rest
    | [] => []
  let ipp := takeDigits cs1
  let fpp :=
    match ipp.2 with
    | c :: rest => if c = Char.ofNat 46 then takeDigits rest else ([], ipp.2)
    | [] => ([], [])
  if ipp.1 = [] && fpp.1 = [] then none
  else
    let e : Int :=
      match fpp.2 with
      | c :: rest =>
          if c = Char.ofNat 101 || c = Char.ofNat 69 then
            let esgn : Int :=
              match rest with
              | d :: _ => if d = Char.ofNat 45 then -1 else 1
              | [] => 1
            let rest1 :=
              match rest with
              | d :: r1 =>
                  if d = Char.ofNat 45 || d = Char.ofNat 43 then r1 else d :: r1
              | [] => []
            let eds := takeDigits rest1
            if eds.1 = [] then 0 else esgn * (digitsVal eds.1 : Int)
          else 0
      | [] => 0
    let m : Int := sgn * (digitsVal (ipp.1 ++ fpp.1) : Int)
    let net : Int := (fpp.1.length : Int) - e
    if net ≤ 0 then some (m * (10 : Int) ^ (-net).toNat, 0)
    else some (m, net.toNat)

/-- Removes factors of ten shared between the mantissa and the scale. -/
def stripTrailingZeros : Int → Nat → Int × Nat
  | m, 0 => (m, 0)
  | m, Nat.succ k =>
      if m % 10 = 0 then stripTrailingZeros (m / 10) k else (m, k + 1)

/-- Model of the JS number-to-string rendering for exact decimal values in
the plain-notation range: minimal decimal digits, no trailing zeros, a
leading zero before the point, negative zero printed as zero.  The
exponent notation JS switches to outside 1e-6..1e21 is not modeled. -/
def numToString (m : Int) (sc : Nat) : String :=
  let p := stripTrailingZeros m sc
  if p.1 = 0 then "0"
  else
    let ds := (toString p.1.natAbs).data
    let body :=
      if p.2 = 0 then ds
      else if p.2 < ds.length then
        ds.take (ds.length - p.2) ++ Char.ofNat 46 :: ds.drop (ds.length - p.2)
      else
        Char.ofNat 48 :: Char.ofNat 46 ::
          (List.replicate (p.2 - ds.length) (Char.ofNat 48) ++ ds)
    String.mk ((if p.1 < 0 then [Char.ofNat 45] else []) ++ body)

/-- parseFloat applied to a comparator operand: a boolean operand is first
coerced to the string true/false, which carries no digits, hence NaN. -/
def sortValParseFloat (v : SortVal) : Option (Int × Nat) :=
  jsParseFloat v.toStr

/-- The numeric-guard condition of the sortSalons comparator: both operands
parsed to numbers whose canonical rendering reproduces the original
toString of the operand. -/
def numericPathTaken (vA vB : SortVal) : Bool :=
  match sortValParseFloat vA, sortValParseFloat vB with
  | some nA, some nB =>
      vA.toStr = numToString nA.1 nA.2 && vB.toStr = numToString nB.1 nB.2
  | _, _ => false

/-- Exact comparison of two parsed decimals, returning the -1/0/1 the
numeric branch feeds into the direction multiplier. -/
def cmpRat (a b : Int × Nat) : Int :=
  let x := a.1 * (10 : Int) ^ b.2
  let y := b.1 * (10 : Int) ^ a.2
  if x < y then -1 else if y < x then 1 else 0

/-- The body of the sortSalons comparator after operand coercion.  strCmp
abstracts the builtin localeCompare with undefined locale and the numeric
plus base-sensitivity options (locale-aware, numeric-sensitive,
case-insensitive); the code calls it on the toString of both operands. -/
def compareVals (strCmp : String → String → Int) (dir : Int)
    (valA valB : SortVal) : Int :=
  match sortValParseFloat valA, sortValParseFloat valB with
  | some nA, some nB =>
      if valA.toStr = numToString nA.1 nA.2 && valB.toStr = numToString nB.1 nB.2 then
        cmpRat nA nB * dir
      else strCmp valA.toStr valB.toStr * dir
  | _, _ => strCmp valA.toStr valB.toStr * dir

/-- The full sortSalons comparator on two records: read a[key] and b[key]
defaulting to the empty string, coerce boolean-like strings, then compare. -/
def sortComparator (strCmp : String → String → Int) (direction : Direction)
    (key : String) (a b : Salon) : Int :=
  compareVals strCmp (dirInt direction)
    (coerceSortVal (a.getD key)) (coerceSortVal (b.getD key))

/-- Embedding of sortSalons: copies the list and sorts it with the
comparator; the stable mergeSort models the stable Array.prototype.sort. -/
def sortSalons (strCmp : String → String → Int) (salons : List Salon)
    (key : String) (direction : Direction) : List Salon :=
  salons.mergeSort (fun a b => sortComparator strCmp direction key a b ≤ 0)

/-- The free-text match of applyFilterAndRender: the lower-cased name,
address and description fields are tested for containment of the query. -/
def salonMatchesQuery (query : String) (salon : Salon) : Bool :=
  strContains (jsToLower (salon.getD "name")) query ||
  strContains (jsToLower (salon.getD "address")) query ||
  strContains (jsToLower (salon.getD "description")) query

/-- The filtering step of applyFilterAndRender: with a non-empty (already
trimmed and lower-cased) query, keep the records matching it; with an
empty query keep the whole list. -/
def filterSalons (salons : List Salon) (query : String) : List Salon :=
  if query = "" then salons else salons.filter (salonMatchesQuery query)

/-- The mutable application state of the salon variant that the polling
pipeline reads and writes: the record set, the header row, the loaded
spreadsheet id, whether the polling interval is installed, the last-seen
serialization, the editing flag, and the UI inputs applyFilterAndRender
consults (search box, sort selection, favorites-view visibility). -/
structure AppState where
  currentSalons : List Salon
  headers : List String
  currentSpreadsheetId : Option String
  pollingActive : Bool
  lastDataState : String
  isEditing : Bool
  searchQuery : String
  sortKey : String
  sortDirection : Direction
  favoritesVisible : Bool
deriving DecidableEq

/-- Outcome of one applyFilterAndRender call: skipped when the favorites
container is visible and nothing is rendered (the guard at the top of the
function); rendered with the list displayResults receives; or threw when
the render itself raises - createSalonCards computes getSalonId, hence
btoa, for every rendered record, and btoa throws on a record whose name
and address reach beyond one-byte code points.  An empty render list shows
the no-results message without computing any identifier. -/
inductive RenderOutcome where
  | skipped
  | rendered (view : List Salon)
  | threw
deriving DecidableEq

/-- Embedding of applyFilterAndRender: the favorites-view guard, the
filtering by the trimmed lower-cased query, the optional sort, and the
displayResults call, whose card construction evaluates getSalonId on every
record of the rendered list and therefore throws as soon as one identifier
does not encode. -/
def applyFilterAndRender (strCmp : String → String → Int) (st : AppState) :
    RenderOutcome :=
  if st.favoritesVisible then .skipped
  else
    let query := jsToLower (jsTrim st.searchQuery)
    let salonsToRender := filterSalons st.currentSalons query
    let salonsToRender :=
      if st.sortKey ≠ "none" then
        sortSalons strCmp salonsToRender st.sortKey st.sortDirection
      else salonsToRender
    if salonsToRender.all (fun s => (getSalonId s).isSome) then
      .rendered salonsToRender
    else .threw

/-- The outcome of the sheet fetch at the top of loadData: a response whose
values field may be absent, or a request error. -/
inductive FetchResult where
  | ok (values : Option (List (List String)))
  | err (e : GapiError)
deriving DecidableEq

/-- The externally visible effect of one loadData call: the list passed to
displayResults when a re-render happened, and the displayError message when
one was shown. -/
structure LoadEffect where
  view : Option (List Salon)
  errorMsg : Option String
deriving DecidableEq

/-- The no-op effect (no re-render, no error display). -/
def noLoadEffect : LoadEffect :=
  { view := none, errorMsg := none }

/-- The empty-data error message of loadData. -/
def noDataMsg : String :=
  "No data found in the sheet, or sheet is missing a header row."

/-- The state mutation of a changed poll payload: store the new
serialization, take the header row, and rebuild the record set from the
data rows (the assignments preceding applyFilterAndRender in the source). -/
def loadDataApply (data : List (List String)) (st : AppState) : AppState :=
  { st with
    lastDataState := serializeRows data
    headers := data.headD []
    currentSalons := normalizeRows (data.headD []) data.tail }

/-- Embedding of loadData as a pure step: given the state and the fetch
outcome, produce the next state and the visible effect.  Mirrors the source
order: the editing guard, the missing-id guard, the error classification
with the fatal statuses clearing the polling interval, the fewer-than-two
rows error, the serialization comparison against lastDataState, and the
recomputation of headers and records followed by applyFilterAndRender,
which runs inside the try: when the render throws (a record identifier
that does not encode), the catch displays the classified message - a
non-API exception, so the generic message, and no polling stop - and the
mutation that preceded the render is kept.
The headers comparison of the source (JSON.stringify equality guarding the
reassignment and the sort-option rebuild) is modeled by assigning the new
header row directly: stringify-equal string arrays are equal, so the
resulting state is the same; the sort-option rebuild touches only the DOM. -/
def loadData (strCmp : String → String → Int) (st : AppState)
    (fetch : FetchResult) : AppState × LoadEffect :=
  if st.isEditing then (st, noLoadEffect)
  else if st.currentSpreadsheetId = none then (st, noLoadEffect)
  else
    match fetch with
    | .err e =>
        let st1 := if isFatal e then { st with pollingActive := false } else st
        (st1, { view := none, errorMsg := some (parseGapiError e) })
    | .ok none => (st, { view := none, errorMsg := some noDataMsg })
    | .ok (some data) =>
        if data.length < 2 then (st, { view := none, errorMsg := some noDataMsg })
        else
          let currentState := serializeRows data
          if currentState = st.lastDataState then (st, noLoadEffect)
          else
            let st1 := loadDataApply data st
            let eff :=
              match applyFilterAndRender strCmp st1 with
              | .rendered view => { view := some view, errorMsg := none }
              | .skipped => noLoadEffect
              | .threw =>
                  { view := none, errorMsg := some (parseGapiError .nonApi) }
            (st1, eff)

/-- An event acting on the polling state: a scheduled poll cycle with its
fetch outcome, or the user loading a source. -/
inductive PollEvent where
  | poll (fetch : FetchResult)
  | reload (id : String)
deriving DecidableEq

/-- Modelled from the spec: the user's explicit load/reload action (its
handler lies in the part of this source file that is not present here):
loading a source records the spreadsheet id and (re)starts the polling
interval; the spec states that after a fatal polling error the loop must
be explicitly restarted by the user reloading the source. -/
def userReload (id : String) (st : AppState) : AppState :=
  { st with currentSpreadsheetId := some id, pollingActive := true }

/-- One step of the polling state machine. -/
def pollStep (strCmp : String → String → Int) (ev : PollEvent)
    (st : AppState) : AppState :=
  match ev with
  | .poll f => (loadData strCmp st f).1
  | .reload id => userReload id st

/-- The pieces of program state toggleFavorite touches: the record being
toggled, the authoritative collection and header row, the favorite buttons
bound to a record identifier (modeled as identifier to displayed state),
the card dataset snapshots (modeled as card element id to the record whose
serialization is stored), the alert messages shown, and the backend writes
issued as (range, values) pairs. -/
structure ToggleState where
  salon : Salon
  currentSalons : List Salon
  headers : List String
  ui : List (String × Bool)
  cardData : List (String × Salon)
  alerts : List String
  writes : List (String × List (List String))
deriving DecidableEq

/-- Outcome of the asynchronous updateSheetData write. -/
inductive WriteOutcome where
  | success
  | failure (e : GapiError)

/-- Embedding of toggleFavorite, with the write outcome supplied as input
(it is unused on the paths that never issue a write).  The final none
models the uncaught exception getSalonId raises inside
updateFavoriteButtons when btoa rejects the identifier; the identifier is
computed once here because the record name and address it depends on are
never modified.  On the success path, the displayFavorites refresh touches
only the DOM and is not tracked. -/
def toggleFavorite (outcome : WriteOutcome) (st : ToggleState) :
    Option ToggleState :=
  match st.salon.rowIndex with
  | none =>
      some { st with alerts := st.alerts ++
        ["You can only favorite items that are loaded from a Google Sheet."] }
  | some rowIdx =>
      let originalFavoriteState := st.salon.get "favorite"
      let isNowFavorited := ! isFavorited st.salon
      let salon1 := st.salon.setFavorite
        (some (if isNowFavorited then "TRUE" else "FALSE"))
      match getSalonId salon1 with
      | none => none
      | some salonId =>
          let st1 := { st with
            salon := salon1
            ui := jsSet st.ui salonId (isFavorited salon1) }
          match st1.headers.findIdx? (fun h => jsToLower h = "favorite") with
          | none =>
              let salon2 := st1.salon.setFavorite originalFavoriteState
              some { st1 with
                salon := salon2
                ui := jsSet st1.ui salonId (isFavorited salon2)
                alerts := st1.alerts ++
                  ["Could not find a \"favorite\" column in your sheet."] }
          | some favoriteColIndex =>
              let colLetter := String.mk [Char.ofNat (65 + favoriteColIndex)]
              let range := "Sheet1!" ++ colLetter ++ toString rowIdx
              let st2 := { st1 with
                writes := st1.writes ++ [(range, [[salon1.getD "favorite"]])] }
              match outcome with
              | .success =>
                  match st2.currentSalons.findIdx?
                      (fun s => s.rowIndex = some rowIdx) with
                  | none => some st2
                  | some i =>
                      let entry := ((st2.currentSalons.getD i salon1).setFavorite
                        (salon1.get "favorite"))
                      some { st2 with
                        currentSalons := st2.currentSalons.set i entry
                        cardData := jsSet st2.cardData ("card-" ++ salonId) entry }
              | .failure e =>
                  let salon2 := st2.salon.setFavorite originalFavoriteState
                  some { st2 with
                    salon := salon2
                    ui := jsSet st2.ui salonId (isFavorited salon2)
                    alerts := st2.alerts ++
                      ["Failed to update favorite status: " ++ parseGapiError e] }

/-- Two consecutive favorite toggles, both backend writes succeeding. -/
def toggleTwice (st : ToggleState) : Option ToggleState :=
  (toggleFavorite .success st).bind (toggleFavorite .success)

/-- Embedding of escapeHTML (index.tsx) on one character: the five
HTML-special characters are replaced by their entities. -/
def escapeHTMLChar (c : Char) : List Char :=
  if c = Char.ofNat 38 then "&amp;".data
  else if c = Char.ofNat 60 then "&lt;".data
  else if c = Char.ofNat 62 then "&gt;".data
  else if c = Char.ofNat 34 then "&quot;".data
  else if c = Char.ofNat 39 then "&#39;".data
  else [c]

/-- Embedding of escapeHTML on string arguments; the non-string branch
(String of the falsy-or) is modeled at the call sites: an undefined value
becomes the empty string and an object value becomes its default String
rendering. -/
def escapeHTML (s : String) : String :=
  String.mk (List.flatten (s.data.map escapeHTMLChar))

/-- A JSON value stored in an AI business record: the schema the program
declares yields string fields plus one nested string-to-string object
(socialMedia).  Numeric fields are carried as the decimal strings they
serialize and display as. -/
inductive JVal where
  | s (v : String)
  | obj (fields : List (String × String))
deriving DecidableEq

/-- An AI business record: an ordered property map as JSON.parse yields it. -/
abbrev Business := List (String × JVal)

/-- Property read on a business record. -/
def bGet (b : Business) (k : String) : Option JVal :=
  jsGet b k

/-- String content of a business property, empty when absent or nested
(the concatenation sites read the required string fields name/address). -/
def bStr (b : Business) (k : String) : String :=
  match bGet b k with
  | some (.s v) => v
  | _ => ""

/-- JSON.stringify of a stored value. -/
def stringifyJVal : JVal → String
  | .s v => jsonString v
  | .obj fs =>
      "\x7b" ++
        String.intercalate ","
          (fs.map (fun p => jsonString p.1 ++ ":" ++ jsonString p.2)) ++
      "\x7d"

/-- JSON.stringify of a whole business record, properties in order. -/
def stringifyBusiness (b : Business) : String :=
  "\x7b" ++
    String.intercalate ","
      (b.map (fun p => jsonString p.1 ++ ":" ++ stringifyJVal p.2)) ++
  "\x7d"

/-- The b.socialMedia?.instagram read with its falsy-or default: the
instagram entry of the nested social object, or the empty string. -/
def socialInstagram (b : Business) : String :=
  match bGet b "socialMedia" with
  | some (.obj fs) => (jsGet fs "instagram").getD ""
  | _ => ""

/-- The per-record predicate of filterAndRenderResults (index.tsx): the
free-text term is matched against the lower-cased JSON serialization of
the whole record, the instagram term against the instagram URL, and the
checkbox requires a truthy instagram URL; empty terms match everything. -/
def businessMatches (searchTerm instagramSearchTerm : String)
    (hasInstagramOnly : Bool) (b : Business) : Bool :=
  let fullText := jsToLower (stringifyBusiness b)
  let matchesSearch :=
    if searchTerm = "" then true else strContains fullText searchTerm
  let matchesInstagram :=
    if instagramSearchTerm = "" then true
    else strContains (jsToLower (socialInstagram b)) instagramSearchTerm
  let matchesHasInstagram :=
    if hasInstagramOnly then socialInstagram b ≠ "" else true
  matchesSearch && matchesInstagram && matchesHasInstagram

/-- Embedding of filterAndRenderResults: lower-cases both input terms and
filters the current business list; the returned list is what renderResults
receives. -/
def filterAndRenderResults (searchTerm instagramSearchTerm : String)
    (hasInstagramOnly : Bool) (businesses : List Business) : List Business :=
  businesses.filter
    (businessMatches (jsToLower searchTerm) (jsToLower instagramSearchTerm)
      hasInstagramOnly)

/-- Truthiness of d.socialMedia as the CSV exporter tests it: an object
(even empty) is truthy, a string is truthy when non-empty, an absent
property is falsy. -/
def bHasSocial (b : Business) : Bool :=
  match bGet b "socialMedia" with
  | some (.obj _) => true
  | some (.s v) => v ≠ ""
  | none => false

/-- Object.keys of d.socialMedia with the falsy-or-empty-object default.
The model covers the object-valued case the schema produces; the key list
of a string-valued socialMedia (its character indices) is not modeled. -/
def bSocialKeys (b : Business) : List String :=
  match bGet b "socialMedia" with
  | some (.obj fs) => fs.map (fun p => p.1)
  | _ => []

/-- Cell text of row[header] passed through escapeHTML: a missing property
(undefined) renders empty, a string is escaped, and a nested object falls
into the non-string branch of escapeHTML, which Strings it. -/
def escapeCell : Option JVal → String
  | none => ""
  | some (.s v) => escapeHTML v
  | some (.obj _) => "[object Object]"

/-- The row.socialMedia?.[header] read of the exporter with its falsy-or
default. -/
def socialCell (b : Business) (header : String) : String :=
  match bGet b "socialMedia" with
  | some (.obj fs) => (jsGet fs header).getD ""
  | _ => ""

/-- Embedding of convertToCsv (index.tsx): empty input yields the empty
string; otherwise the headers are the first record's keys without
socialMedia, the social columns are the keys of the social object of the
first record that has one, the header row quotes the raw names, and every
data cell is HTML-escaped and then double-quoted. -/
def convertToCsv (data : List Business) : String :=
  match data with
  | [] => ""
  | d0 :: _ =>
      let headers := (d0.map (fun p => p.1)).filter (fun k => k ≠ "socialMedia")
      let socialHeaders :=
        if data.any bHasSocial then bSocialKeys ((data.find? bHasSocial).getD [])
        else []
      let allHeaders := headers ++ socialHeaders
      let headerRow :=
        String.intercalate "," (allHeaders.map (fun h => "\"" ++ h ++ "\""))
      let rows := data.map (fun row =>
        let mainValues :=
          headers.map (fun header => "\"" ++ escapeCell (bGet row header) ++ "\"")
        let socialValues :=
          socialHeaders.map (fun header =>
            "\"" ++ escapeHTML (socialCell row header) ++ "\"")
        String.intercalate "," (mainValues ++ socialValues))
      String.intercalate "\n" (headerRow :: rows)

/-- UTF-8 bytes of one code point. -/
def utf8Bytes (c : Char) : List Nat :=
  let n := c.toNat
  if n < 128 then [n]
  else if n < 2048 then [192 + n / 64, 128 + n % 64]
  else if n < 65536 then [224 + n / 4096, 128 + n / 64 % 64, 128 + n % 64]
  else [240 + n / 262144, 128 + n / 4096 % 64, 128 + n / 64 % 64, 128 + n % 64]

/-- The characters encodeURIComponent leaves unescaped: the ASCII letters
(code points 65-90 and 97-122), the ASCII digits (48-57), and the marks
- _ . ! ~ * apostrophe ( ). -/
def uriUnreservedChar (c : Char) : Bool :=
  (65 ≤ c.toNat && c.toNat ≤ 90) || (97 ≤ c.toNat && c.toNat ≤ 122) ||
  (48 ≤ c.toNat && c.toNat ≤ 57) ||
  c = Char.ofNat 45 || c = Char.ofNat 95 || c = Char.ofNat 46 ||
  c = Char.ofNat 33 || c = Char.ofNat 126 || c = Char.ofNat 42 ||
  c = Char.ofNat 39 || c = Char.ofNat 40 || c = Char.ofNat 41

/-- Percent-encoding of one byte with upper-case hexadecimal digits. -/
def pctEncodeByte (b : Nat) : List Char :=
  [Char.ofNat 37, hexDigitUpper (b / 16), hexDigitUpper (b % 16)]

/-- Model of the builtin encodeURIComponent: unreserved characters pass
through, every other character is replaced by the percent-encoding of its
UTF-8 bytes.  (Lean strings are well-formed Unicode, so the lone-surrogate
URIError cannot arise.) -/
def encodeURIComponent (s : String) : String :=
  String.mk (List.flatten (s.data.map (fun c =>
    if uriUnreservedChar c then [c]
    else List.flatten ((utf8Bytes c).map pctEncodeByte))))

/-- Embedding of getBusinessId (index.tsx):
btoa(encodeURIComponent(business.name + business.address)). -/
def getBusinessId (business : Business) : Option String :=
  btoa (encodeURIComponent (bStr business "name" ++ bStr business "address"))

/-- Boolean well-formedness of a business record for the CSV and filter
reasoning: a socialMedia property, when present, holds the nested object
the schema declares (not a plain string). -/
def socialOk (b : Business) : Bool :=
  match bGet b "socialMedia" with
  | some (.s _) => false
  | _ => true

/-- Specification-side rendering of the CSV header row as the claim words
it literally: the first record's keys excluding the nested socialMedia
object, with that same first record's social sub-keys appended, each
double-quoted.  Written from the spec text, to be compared against
convertToCsv. -/
def csvHeaderFromFirst (data : List Business) : String :=
  match data with
  | [] => ""
  | d0 :: _ =>
      String.intercalate ","
        ((((d0.map (fun p => p.1)).filter (fun k => k ≠ "socialMedia")) ++
            bSocialKeys d0).map (fun h => "\"" ++ h ++ "\""))

/-- First line of a rendered text (up to the first newline). -/
def firstLineOf (s : String) : String :=
  String.mk (s.data.takeWhile (fun c => c ≠ Char.ofNat 10))

/-- The social columns the exporter actually appends: the social sub-keys
of the first record whose socialMedia property is truthy. -/
def csvSocialColumns (data : List Business) : List String :=
  match data.find? bHasSocial with
  | some d => bSocialKeys d
  | none => []

/-- Specification-side rendering of one CSV data row: for every main
header the cell value HTML-escaped then double-quoted, followed by the
social columns likewise escaped and quoted. -/
def csvRowSpec (mainHeaders socialHeaders : List String) (r : Business) : String :=
  String.intercalate ","
    (mainHeaders.map (fun h => "\"" ++ escapeCell (bGet r h) ++ "\"") ++
     socialHeaders.map (fun h => "\"" ++ escapeHTML (socialCell r h) ++ "\""))

/-- A trivial instantiation of the abstract locale comparator, used to
evaluate the pipeline at concrete inputs. -/
def cmp0 : String → String → Int :=
  fun _ _ => 0

/-- The example record of the spec scenario: headers Name, Address,
Favorite and the single data row Acme / 1 Main St / FALSE. -/
def exampleSalon : Salon :=
  normalizeRow ["Name", "Address", "Favorite"] ["Acme", "1 Main St", "FALSE"] 0

/-- The example record with a non-normalized favorite cell. -/
def exampleSalonNo : Salon :=
  normalizeRow ["Name", "Address", "Favorite"] ["Acme", "1 Main St", "no"] 0

/-- Toggle state holding the example record as both the toggled record and
the collection entry. -/
def exampleToggleState : ToggleState :=
  { salon := exampleSalon
    currentSalons := [exampleSalon]
    headers := ["Name", "Address", "Favorite"]
    ui := []
    cardData := []
    alerts := []
    writes := [] }

/-- Toggle state holding the non-normalized example record. -/
def exampleToggleStateNo : ToggleState :=
  { exampleToggleState with
    salon := exampleSalonNo
    currentSalons := [exampleSalonNo] }

/-- A record whose name contains a code point above U+00FF. -/
def cjkSalon : Salon :=
  { rowIndex := some 2
    fields := [("name", "美容室"), ("address", "1 Main St")] }

/-- Application state for the change-detection evaluation: a source is
loaded, no edit is open, the favorites view is open, and the last-seen
serialization stems from a previous successful two-row fetch. -/
def pollStateFavOpen : AppState :=
  { currentSalons := normalizeRows ["Name"] [["Acme"]]
    headers := ["Name"]
    currentSpreadsheetId := some "sheet-id"
    pollingActive := true
    lastDataState := serializeRows [["Name"], ["Acme"]]
    isEditing := false
    searchQuery := ""
    sortKey := "none"
    sortDirection := .asc
    favoritesVisible := true }

/-- A fetched payload differing from the last-seen serialization. -/
def changedRows : List (List String) :=
  [["Name"], ["Bcme"]]

/-- A changed payload whose single record carries a name with code points
above U+00FF, so its identifier does not encode during rendering. -/
def cjkRows : List (List String) :=
  [["Name"], ["美容室"]]

/-- Application state with an open edit session. -/
def pollStateEditing : AppState :=
  { pollStateFavOpen with isEditing := true, favoritesVisible := false }

/-- Application state showing the ordinary results view. -/
def pollStateResults : AppState :=
  { pollStateFavOpen with favoritesVisible := false }

/-- A business record whose phone number, and no searched text field,
contains the digits 555. -/
def phoneBusiness : Business :=
  [("name", .s "Acme Salon"), ("address", .s "1 Main St"),
   ("phone", .s "555-1234")]

/-- Two-record export input whose first record has no social object while
the second one does. -/
def csvTwoRecords : List Business :=
  [[("name", .s "A")],
   [("name", .s "B"), ("socialMedia", .obj [("instagram", "u")])]]

/-- The single-record export input of the spec example. -/
def csvExample : List Business :=
  [[("name", .s "A"), ("address", .s "B")]]


theorem jsGet_jsSet_self {α : Type} (fs : List (String × α)) (k : String) (v : α) :
    jsGet (jsSet fs k v) k = some v := by
  induction fs with
  | nil => simp [jsSet, jsGet, List.find?]
  | cons p rest ih =>
      obtain ⟨k0, v0⟩ := p
      by_cases h : k0 = k
      · simp [jsSet, h, jsGet, List.find?]
      · simpa [jsSet, h, jsGet, List.find?] using ih

theorem jsGet_jsSet_ne {α : Type} (fs : List (String × α)) (k k2 : String) (v : α)
    (h : k2 ≠ k) : jsGet (jsSet fs k v) k2 = jsGet fs k2 := by
  have hkk : ¬ (k = k2) := fun hh => h hh.symm
  induction fs with
  | nil => simp [jsSet, jsGet, List.find?, hkk]
  | cons p rest ih =>
      obtain ⟨k0, v0⟩ := p
      by_cases hp : k0 = k
      · subst hp
        simp [jsSet, jsGet, List.find?, hkk]
      · simp only [jsSet, if_neg hp]
        by_cases hq : k0 = k2
        · simp [jsGet, List.find?, hq]
        · simpa [jsGet, List.find?, hq] using ih

theorem removeKey_of_absent {α : Type} (fs : List (String × α)) (k : String)
    (h : jsGet fs k = none) : removeKey fs k = fs := by
  induction fs with
  | nil => rfl
  | cons p rest ih =>
      obtain ⟨k0, v0⟩ := p
      by_cases hp : k0 = k
      · exfalso
        simp [jsGet, List.find?, hp] at h
      · simp only [removeKey, if_neg hp]
        have h2 : jsGet rest k = none := by simpa [jsGet, List.find?, hp] using h
        rw [ih h2]

theorem removeKey_jsSet_of_absent {α : Type} (fs : List (String × α)) (k : String)
    (v : α) (h : jsGet fs k = none) : removeKey (jsSet fs k v) k = fs := by
  induction fs with
  | nil => simp [jsSet, removeKey]
  | cons p rest ih =>
      obtain ⟨k0, v0⟩ := p
      by_cases hp : k0 = k
      · exfalso
        simp [jsGet, List.find?, hp] at h
      · have h2 : jsGet rest k = none := by simpa [jsGet, List.find?, hp] using h
        simp only [jsSet, if_neg hp, removeKey, ih h2]

theorem jsGet_removeKey_ne {α : Type} (fs : List (String × α)) (k k2 : String)
    (h : k2 ≠ k) : jsGet (removeKey fs k) k2 = jsGet fs k2 := by
  induction fs with
  | nil => rfl
  | cons p rest ih =>
      obtain ⟨k0, v0⟩ := p
      by_cases hp : k0 = k
      · subst hp
        have hkk : ¬ (k0 = k2) := fun hh => h hh.symm
        simp [removeKey, jsGet, List.find?, hkk]
      · simp only [removeKey, if_neg hp]
        by_cases hq : k0 = k2
        · simp [jsGet, List.find?, hq]
        · simpa [jsGet, List.find?, hq] using ih

theorem jsSet_append_of_absent {α : Type} (fs : List (String × α)) (k : String)
    (v : α) (h : ∀ q ∈ fs, q.1 ≠ k) : jsSet fs k v = fs ++ [(k, v)] := by
  induction fs with
  | nil => rfl
  | cons p rest ih =>
      obtain ⟨k0, v0⟩ := p
      have hp : k0 ≠ k := by
        have := h (k0, v0) (List.mem_cons_self _ _)
        simpa using this
      simp only [jsSet, if_neg hp, List.cons_append]
      rw [ih (fun q hq => h q (List.mem_cons_of_mem _ hq))]

theorem Salon.rowIndex_setFavorite (s : Salon) (v : Option String) :
    (s.setFavorite v).rowIndex = s.rowIndex := by
  cases v <;> rfl

theorem Salon.get_setFavorite_some (s : Salon) (v : String) :
    (s.setFavorite (some v)).get "favorite" = some v := by
  simp [Salon.setFavorite, Salon.get, jsGet_jsSet_self]

theorem Salon.get_setFavorite_ne (s : Salon) (v : Option String) (k : String)
    (h : k ≠ "favorite") : (s.setFavorite v).get k = s.get k := by
  cases v with
  | some w => simp [Salon.setFavorite, Salon.get, jsGet_jsSet_ne _ _ _ _ h]
  | none => simp [Salon.setFavorite, Salon.get, jsGet_removeKey_ne _ _ _ h]

theorem Salon.getD_setFavorite_ne (s : Salon) (v : Option String) (k : String)
    (h : k ≠ "favorite") : (s.setFavorite v).getD k = s.getD k := by
  unfold Salon.getD
  rw [Salon.get_setFavorite_ne _ _ _ h]

theorem getSalonId_setFavorite (s : Salon) (v : Option String) :
    getSalonId (s.setFavorite v) = getSalonId s := by
  unfold getSalonId
  rw [Salon.getD_setFavorite_ne _ _ _ (by decide), Salon.getD_setFavorite_ne _ _ _ (by decide)]

theorem Salon.setFavorite_none_of_absent (s : Salon) (nv : String)
    (h : s.get "favorite" = none) :
    (s.setFavorite (some nv)).setFavorite none = s := by
  unfold Salon.get at h
  cases s with
  | mk ri fs =>
      simp only [Salon.setFavorite]
      congr 1
      exact removeKey_jsSet_of_absent _ _ _ h

theorem Salon.favorite_revert (s : Salon) (nv : String) :
    ((s.setFavorite (some nv)).setFavorite (s.get "favorite")).get "favorite" =
      s.get "favorite" := by
  cases h : s.get "favorite" with
  | some v => simp [h, Salon.get_setFavorite_some]
  | none => rw [Salon.setFavorite_none_of_absent s nv h, h]

theorem isFavorited_congr (s t : Salon) (h : s.get "favorite" = t.get "favorite") :
    isFavorited s = isFavorited t := by
  unfold isFavorited
  rw [h]

theorem isFavorited_setFavorite_bool (s : Salon) (b : Bool) :
    isFavorited (s.setFavorite (some (if b then "TRUE" else "FALSE"))) = b := by
  unfold isFavorited
  rw [Salon.get_setFavorite_some]
  cases b <;> decide

theorem loadData_no_restart (strCmp : String → String → Int) (st : AppState)
    (f : FetchResult) (h : st.pollingActive = false) :
    (loadData strCmp st f).1.pollingActive = false := by
  unfold loadData
  split
  · exact h
  · split
    · exact h
    · cases f with
      | err e =>
          by_cases hf : isFatal e = true
          · simp [hf]
          · simp only [Bool.not_eq_true] at hf
            simp [hf, h]
      | ok values =>
          cases values with
          | none => exact h
          | some data =>
              by_cases hlen : data.length < 2
              · simp [hlen, h]
              · simp only [if_neg hlen]
                by_cases hsame : serializeRows data = st.lastDataState
                · simp [hsame, h]
                · simp only [if_neg hsame]
                  cases applyFilterAndRender strCmp (loadDataApply data st) <;>
                    simpa [loadDataApply] using h

theorem pollStep_no_restart (strCmp : String → String → Int) (ev : PollEvent)
    (st : AppState) (hev : ∀ rid, ev ≠ .reload rid)
    (h : st.pollingActive = false) :
    (pollStep strCmp ev st).pollingActive = false := by
  cases ev with
  | poll f => exact loadData_no_restart _ _ _ h
  | reload id => exact absurd rfl (hev id)

theorem pollSteps_no_restart (strCmp : String → String → Int)
    (evs : List PollEvent) (st : AppState)
    (hev : ∀ ev ∈ evs, ∀ rid, ev ≠ .reload rid) (h : st.pollingActive = false) :
    (evs.foldl (fun s ev => pollStep strCmp ev s) st).pollingActive = false := by
  induction evs generalizing st with
  | nil => exact h
  | cons e rest ih =>
      exact ih _ (fun ev hm rid => hev ev (List.mem_cons_of_mem _ hm) rid)
        (pollStep_no_restart _ _ _ (fun rid => hev e (List.mem_cons_self _ _) rid) h)

/-- C8: while the editing flag is set, a poll cycle leaves the whole
application state (record set, headers, last-seen serialization, polling
handle) unchanged and produces neither a re-render nor an error display,
whatever the fetch would have returned. -/
theorem c8_editing_suppression (strCmp : String → String → Int) (st : AppState)
    (f : FetchResult) (h : st.isEditing = true) :
    loadData strCmp st f = (st, noLoadEffect) := by
  unfold loadData
  rw [if_pos h]

theorem c8_witness :
    loadData cmp0 pollStateEditing (.ok (some changedRows)) =
      (pollStateEditing, noLoadEffect) :=
  c8_editing_suppression cmp0 pollStateEditing (.ok (some changedRows)) rfl

/-- C6: a poll-cycle fetch failure classified NOT_FOUND or
PERMISSION_DENIED clears the polling interval and displays the classified
message, and no sequence of further poll cycles (only the user reload
event) can turn polling back on; any other failure (RESOURCE_EXHAUSTED or
unknown) displays the classified message and leaves the polling interval
exactly as it was. -/
theorem c6_poll_failure_policy (strCmp : String → String → Int) (st : AppState)
    (e : GapiError) (id : String)
    (hid : st.currentSpreadsheetId = some id) (hedit : st.isEditing = false) :
    (isFatal e = true →
       (loadData strCmp st (.err e)).1.pollingActive = false ∧
       (loadData strCmp st (.err e)).2.errorMsg = some (parseGapiError e) ∧
       ∀ evs : List PollEvent, (∀ ev ∈ evs, ∀ rid, ev ≠ .reload rid) →
         (evs.foldl (fun s ev => pollStep strCmp ev s)
           (loadData strCmp st (.err e)).1).pollingActive = false) ∧
    (isFatal e = false →
       (loadData strCmp st (.err e)).1.pollingActive = st.pollingActive ∧
       (loadData strCmp st (.err e)).2.errorMsg = some (parseGapiError e)) := by
  have hid2 : (st.currentSpreadsheetId = none) = False := by simp [hid]
  constructor
  · intro hf
    have h1 : (loadData strCmp st (.err e)).1.pollingActive = false := by
      simp [loadData, hedit, hid2, hf]
    refine ⟨h1, ?_, ?_⟩
    · simp [loadData, hedit, hid2, hf]
    · intro evs hev
      exact pollSteps_no_restart strCmp evs _ hev h1
  · intro hf
    constructor
    · simp [loadData, hedit, hid2, hf]
    · simp [loadData, hedit, hid2, hf]

theorem c6_witness :
    isFatal (.api "NOT_FOUND" "") = true ∧
    (loadData cmp0 pollStateFavOpen (.err (.api "NOT_FOUND" ""))).1.pollingActive = false ∧
    isFatal (.api "RESOURCE_EXHAUSTED" "") = false ∧
    (loadData cmp0 pollStateFavOpen
        (.err (.api "RESOURCE_EXHAUSTED" ""))).1.pollingActive =
      pollStateFavOpen.pollingActive :=
  ⟨by decide,
   ((c6_poll_failure_policy cmp0 pollStateFavOpen (.api "NOT_FOUND" "")
      "sheet-id" rfl rfl).1 (by decide)).1,
   by decide,
   ((c6_poll_failure_policy cmp0 pollStateFavOpen (.api "RESOURCE_EXHAUSTED" "")
      "sheet-id" rfl rfl).2 (by decide)).1⟩

/-- C1 (amended): a successful poll fetch whose serialization equals the
last-seen serialization (recorded by the previous successful fetch) leaves
the state untouched and triggers neither re-render nor error; a fetch whose
serialization differs in any way recomputes the records from the new rows
and stores the new serialization and headers, and then renders according to
the render outcome: while the favorites view is open nothing further
happens; otherwise the recomputed view is rendered with no error whenever
every rendered record's identifier encodes, and when an identifier does not
encode the render throws inside the try, no re-render happens, and the
caught exception is displayed through the generic classification message. -/
theorem c1_change_detection (strCmp : String → String → Int) (st : AppState)
    (prevData data : List (List String)) (id : String)
    (hid : st.currentSpreadsheetId = some id) (hedit : st.isEditing = false)
    (hlast : st.lastDataState = serializeRows prevData) (hlen : 2 ≤ data.length) :
    (serializeRows data = serializeRows prevData →
       loadData strCmp st (.ok (some data)) = (st, noLoadEffect)) ∧
    (serializeRows data ≠ serializeRows prevData →
       (loadData strCmp st (.ok (some data))).1 = loadDataApply data st ∧
       (loadDataApply data st).currentSalons =
           normalizeRows (data.headD []) data.tail ∧
       (loadDataApply data st).headers = data.headD [] ∧
       (loadDataApply data st).lastDataState = serializeRows data ∧
       (∀ view, applyFilterAndRender strCmp (loadDataApply data st) =
            .rendered view →
          (loadData strCmp st (.ok (some data))).2 =
            { view := some view, errorMsg := none }) ∧
       (applyFilterAndRender strCmp (loadDataApply data st) = .threw →
          (loadData strCmp st (.ok (some data))).2 =
            { view := none, errorMsg := some (parseGapiError .nonApi) }) ∧
       (st.favoritesVisible = true →
          applyFilterAndRender strCmp (loadDataApply data st) = .skipped ∧
          (loadData strCmp st (.ok (some data))).2 = noLoadEffect)) := by
  have hid2 : (st.currentSpreadsheetId = none) = False := by simp [hid]
  have hlen2 : ¬ (data.length < 2) := by omega
  constructor
  · intro heq
    have hcond : serializeRows data = st.lastDataState := by rw [hlast]; exact heq
    simp [loadData, hedit, hid2, hlen2, hcond]
  · intro hne
    have hcond : ¬ (serializeRows data = st.lastDataState) := by
      rw [hlast]; exact hne
    have h1 : (loadData strCmp st (.ok (some data))).1 = loadDataApply data st := by
      simp [loadData, hedit, hid2, hlen2, hcond]
    have h2 : (loadData strCmp st (.ok (some data))).2 =
        (match applyFilterAndRender strCmp (loadDataApply data st) with
         | .rendered view => { view := some view, errorMsg := none }
         | .skipped => noLoadEffect
         | .threw =>
             { view := none, errorMsg := some (parseGapiError .nonApi) }) := by
      simp [loadData, hedit, hid2, hlen2, hcond]
    refine ⟨h1, by simp [loadDataApply], by simp [loadDataApply],
      by simp [loadDataApply], ?_, ?_, ?_⟩
    · intro view hro
      rw [h2, hro]
    · intro hro
      rw [h2, hro]
    · intro hv
      have hfv : (loadDataApply data st).favoritesVisible = true := by
        simpa [loadDataApply] using hv
      have hsk : applyFilterAndRender strCmp (loadDataApply data st) = .skipped := by
        unfold applyFilterAndRender
        rw [if_pos hfv]
      exact ⟨hsk, by rw [h2, hsk]⟩

theorem c1_witness :
    loadData cmp0 pollStateResults (.ok (some [["Name"], ["Acme"]])) =
      (pollStateResults, noLoadEffect) ∧
    (loadData cmp0 pollStateResults (.ok (some changedRows))).2 =
      { view := some (normalizeRows ["Name"] [["Bcme"]]), errorMsg := none } :=
  ⟨(c1_change_detection cmp0 pollStateResults [["Name"], ["Acme"]]
      [["Name"], ["Acme"]] "sheet-id" rfl rfl rfl (by decide)).1 rfl,
   ((c1_change_detection cmp0 pollStateResults [["Name"], ["Acme"]]
      changedRows "sheet-id" rfl rfl rfl (by decide)).2
        (by decide)).2.2.2.2.1 (normalizeRows ["Name"] [["Bcme"]]) (by decide)⟩

/-- C1 as stated is false on the code at two concrete inputs: with the
favorites view open, a successful poll whose payload serialization differs
from the last-seen one recomputes the records but does not re-render
(applyFilterAndRender renders only while the favorites container is
hidden); and in the results view, a changed payload whose record's name
carries code points above U+00FF makes the render throw inside the try, so
no re-render happens and an error message is displayed instead of none. -/
theorem c1_counterexample :
    serializeRows changedRows ≠ pollStateFavOpen.lastDataState ∧
    (loadData cmp0 pollStateFavOpen (.ok (some changedRows))).2.view = none ∧
    (loadData cmp0 pollStateFavOpen (.ok (some changedRows))).1.currentSalons =
      normalizeRows ["Name"] [["Bcme"]] ∧
    serializeRows cjkRows ≠ pollStateResults.lastDataState ∧
    pollStateResults.favoritesVisible = false ∧
    (loadData cmp0 pollStateResults (.ok (some cjkRows))).2.view = none ∧
    (loadData cmp0 pollStateResults (.ok (some cjkRows))).2.errorMsg =
      some (parseGapiError .nonApi) := by
  refine ⟨by decide, by decide, by decide, by decide, by decide, by decide,
    by decide⟩

theorem Salon.getD_setFavorite_some (s : Salon) (v : String) :
    (s.setFavorite (some v)).getD "favorite" = v := by
  unfold Salon.getD
  rw [Salon.get_setFavorite_some]
  rfl

/-- C2: a favorite toggle on a sheet-backed record (rowIndex present,
favorite column resolvable) whose backend write fails leaves the record's
favorite field at its pre-toggle value, every favorite control bound to the
record's identifier displaying the reverted state, and appends the alert
built from the classified backend error; the authoritative collection is
untouched and exactly the one optimistic write was attempted. -/
theorem c2_rollback (st : ToggleState) (e : GapiError) (r i : Nat) (id : String)
    (h1 : st.salon.rowIndex = some r)
    (h2 : st.headers.findIdx? (fun h => jsToLower h = "favorite") = some i)
    (h3 : getSalonId st.salon = some id) :
    ∃ st2, toggleFavorite (.failure e) st = some st2 ∧
      st2.salon.get "favorite" = st.salon.get "favorite" ∧
      jsGet st2.ui id = some (isFavorited st.salon) ∧
      st2.alerts = st.alerts ++
        ["Failed to update favorite status: " ++ parseGapiError e] ∧
      st2.currentSalons = st.currentSalons ∧
      st2.writes = st.writes ++
        [("Sheet1!" ++ String.mk [Char.ofNat (65 + i)] ++ toString r,
          [[if ! isFavorited st.salon then "TRUE" else "FALSE"]])] := by
  have hsid : getSalonId (st.salon.setFavorite
      (some (if ! isFavorited st.salon then "TRUE" else "FALSE"))) = some id := by
    rw [getSalonId_setFavorite]
    exact h3
  unfold toggleFavorite
  simp only [h1, hsid, h2, Salon.getD_setFavorite_some]
  refine ⟨_, rfl, ?_, ?_, rfl, rfl, rfl⟩
  · exact Salon.favorite_revert st.salon _
  · rw [jsGet_jsSet_self]
    exact congrArg some (isFavorited_congr _ _ (Salon.favorite_revert st.salon _))

theorem toggleFavorite_success_spec (st : ToggleState) (r i : Nat) (id : String)
    (h1 : st.salon.rowIndex = some r)
    (h2 : st.headers.findIdx? (fun h => jsToLower h = "favorite") = some i)
    (h3 : getSalonId st.salon = some id) :
    ∃ st2, toggleFavorite .success st = some st2 ∧
      st2.salon = st.salon.setFavorite
        (some (if ! isFavorited st.salon then "TRUE" else "FALSE")) ∧
      st2.headers = st.headers ∧
      st2.alerts = st.alerts ∧
      st2.writes = st.writes ++
        [("Sheet1!" ++ String.mk [Char.ofNat (65 + i)] ++ toString r,
          [[if ! isFavorited st.salon then "TRUE" else "FALSE"]])] := by
  have hsid : getSalonId (st.salon.setFavorite
      (some (if ! isFavorited st.salon then "TRUE" else "FALSE"))) = some id := by
    rw [getSalonId_setFavorite]
    exact h3
  unfold toggleFavorite
  simp only [h1, hsid, h2, Salon.getD_setFavorite_some]
  cases hfind : List.findIdx?
      (fun s => s.rowIndex = some r) st.currentSalons with
  | none => exact ⟨_, rfl, rfl, rfl, rfl, rfl⟩
  | some j => exact ⟨_, rfl, rfl, rfl, rfl, rfl⟩

theorem c2_witness :
    (toggleFavorite (.failure .nonApi) exampleToggleState).isSome = true := by
  obtain ⟨st2, hEq, -, -, -, -, -⟩ :=
    c2_rollback exampleToggleState .nonApi 2 2
      ((getSalonId exampleSalon).getD "") (by decide) (by decide) (by decide)
  rw [hEq]
  rfl

/-- C7 (amended): two consecutive favorite toggles with succeeding writes
issue exactly two backend writes with opposite values to the single-cell
range Sheet1 column-of-favorite row-of-record, and return the favorite
field to the normalized form of its original value - equal to the original
whenever the original is the literal TRUE or FALSE.  For the example record
(favorite FALSE) the first write carries TRUE and the second FALSE. -/
theorem c7_toggle_roundtrip (st : ToggleState) (r i : Nat) (id : String)
    (h1 : st.salon.rowIndex = some r)
    (h2 : st.headers.findIdx? (fun h => jsToLower h = "favorite") = some i)
    (h3 : getSalonId st.salon = some id) :
    ∃ st2, toggleTwice st = some st2 ∧
      st2.salon.get "favorite" =
        some (if isFavorited st.salon then "TRUE" else "FALSE") ∧
      st2.writes = st.writes ++
        [("Sheet1!" ++ String.mk [Char.ofNat (65 + i)] ++ toString r,
          [[if isFavorited st.salon then "FALSE" else "TRUE"]]),
         ("Sheet1!" ++ String.mk [Char.ofNat (65 + i)] ++ toString r,
          [[if isFavorited st.salon then "TRUE" else "FALSE"]])] ∧
      (if isFavorited st.salon then "FALSE" else "TRUE") ≠
        (if isFavorited st.salon then "TRUE" else "FALSE") ∧
      (∀ v, st.salon.get "favorite" = some v → (v = "TRUE" ∨ v = "FALSE") →
         st2.salon.get "favorite" = some v) := by
  obtain ⟨stA, hA, hAsalon, hAheaders, hAalerts, hAwrites⟩ :=
    toggleFavorite_success_spec st r i id h1 h2 h3
  have h1A : stA.salon.rowIndex = some r := by
    rw [hAsalon, Salon.rowIndex_setFavorite]
    exact h1
  have h2A : stA.headers.findIdx? (fun h => jsToLower h = "favorite") = some i := by
    rw [hAheaders]
    exact h2
  have h3A : getSalonId stA.salon = some id := by
    rw [hAsalon, getSalonId_setFavorite]
    exact h3
  obtain ⟨stB, hB, hBsalon, hBheaders, hBalerts, hBwrites⟩ :=
    toggleFavorite_success_spec stA r i id h1A h2A h3A
  have hfavA : isFavorited stA.salon = ! isFavorited st.salon := by
    rw [hAsalon]
    exact isFavorited_setFavorite_bool st.salon (! isFavorited st.salon)
  refine ⟨stB, ?_, ?_, ?_, ?_, ?_⟩
  · unfold toggleTwice
    rw [hA]
    simpa using hB
  · rw [hBsalon, Salon.get_setFavorite_some, hfavA]
    cases hb : isFavorited st.salon <;> simp
  · rw [hBwrites, hAwrites, hfavA]
    cases hb : isFavorited st.salon <;> simp
  · cases hb : isFavorited st.salon <;> decide
  · intro v hv hTF
    rw [hBsalon, Salon.get_setFavorite_some, hfavA]
    rcases hTF with rfl | rfl
    · have hfav : isFavorited st.salon = true := by
        unfold isFavorited
        rw [hv]
        decide
      rw [hfav]
      rfl
    · have hfav : isFavorited st.salon = false := by
        unfold isFavorited
        rw [hv]
        decide
      rw [hfav]
      rfl

theorem c7_witness :
    (toggleTwice exampleToggleState).isSome = true := by
  obtain ⟨st2, hEq, -, -, -, -⟩ :=
    c7_toggle_roundtrip exampleToggleState 2 2
      ((getSalonId exampleSalon).getD "") (by decide) (by decide) (by decide)
  rw [hEq]
  rfl

/-- C7 as stated is false on the code: for the example record (favorite
FALSE) the second of the two toggle writes carries FALSE, not TRUE (TRUE is
the first write); and a record whose stored favorite is the non-normalized
string no ends at FALSE after a double toggle, not at its original value. -/
theorem c7_counterexample :
    (toggleTwice exampleToggleState).map ToggleState.writes =
      some [("Sheet1!C2", [["TRUE"]]), ("Sheet1!C2", [["FALSE"]])] ∧
    ([["FALSE"]] : List (List String)) ≠ [["TRUE"]] ∧
    (toggleTwice exampleToggleStateNo).map (fun s => s.salon.get "favorite") =
      some (some "FALSE") ∧
    exampleSalonNo.get "favorite" = some "no" ∧
    ("FALSE" : String) ≠ "no" := by
  refine ⟨by decide, by decide, by decide, by decide, by decide⟩

/-- C3: the sortSalons comparator takes its numeric branch only when both
operands parse as numbers whose canonical rendering round-trips to the
operand's toString; a partially numeric value such as 123 Main St therefore
never compares numerically against anything, while the exact literal 123
does; whenever the guard fails the comparator returns the locale comparison
of the two toString values times the direction multiplier. -/
theorem c3_numeric_guard (strCmp : String → String → Int) (dir : Int)
    (vA vB : SortVal) :
    (numericPathTaken vA vB = true →
       ∃ nA nB, sortValParseFloat vA = some nA ∧ sortValParseFloat vB = some nB ∧
         vA.toStr = numToString nA.1 nA.2 ∧ vB.toStr = numToString nB.1 nB.2) ∧
    (numericPathTaken vA vB = false →
       compareVals strCmp dir vA vB = strCmp vA.toStr vB.toStr * dir) ∧
    (numericPathTaken (.s "123 Main St") vB = false) ∧
    (numericPathTaken (.s "123") (.s "123") = true) := by
  refine ⟨?_, ?_, ?_, by decide⟩
  · intro h
    unfold numericPathTaken at h
    cases hA : sortValParseFloat vA with
    | none => rw [hA] at h; cases sortValParseFloat vB <;> simp at h
    | some nA =>
        cases hB : sortValParseFloat vB with
        | none => rw [hA, hB] at h; simp at h
        | some nB =>
            rw [hA, hB] at h
            simp only [Bool.and_eq_true, decide_eq_true_eq] at h
            exact ⟨nA, nB, rfl, rfl, h.1, h.2⟩
  · intro h
    unfold numericPathTaken at h
    unfold compareVals
    cases hA : sortValParseFloat vA with
    | none => cases sortValParseFloat vB <;> rfl
    | some nA =>
        cases hB : sortValParseFloat vB with
        | none => rfl
        | some nB =>
            have h2 : (decide (vA.toStr = numToString nA.1 nA.2) &&
                decide (vB.toStr = numToString nB.1 nB.2)) = false := by
              rw [hA, hB] at h
              exact h
            simp [h2]
  · have hA : sortValParseFloat (SortVal.s "123 Main St") = some (123, 0) := by
      decide
    unfold numericPathTaken
    rw [hA]
    cases hB : sortValParseFloat vB with
    | none => rfl
    | some nB =>
        have h1 : (decide ((SortVal.s "123 Main St").toStr =
            numToString (123 : Int) 0)) = false := by decide
        simp only [h1, Bool.false_and]

theorem c3_witness :
    numericPathTaken (.s "123") (.s "123") = true ∧
    compareVals cmp0 1 (.s "123 Main St") (.s "45") =
      cmp0 (SortVal.s "123 Main St").toStr (SortVal.s "45").toStr * 1 :=
  ⟨(c3_numeric_guard cmp0 1 (.s "0") (.s "0")).2.2.2,
   (c3_numeric_guard cmp0 1 (.s "123 Main St") (.s "45")).2.1 (by decide)⟩

theorem foldl_jsSet_fresh (row : List String) (ps : List (Nat × String))
    (acc : List (String × String))
    (hnd : (ps.map (fun p => jsToLower p.2)).Nodup)
    (hfresh : ∀ q ∈ acc, q.1 ∉ ps.map (fun p => jsToLower p.2)) :
    ps.foldl (fun a p => jsSet a (jsToLower p.2) (row.getD p.1 "")) acc =
      acc ++ ps.map (fun p => (jsToLower p.2, row.getD p.1 "")) := by
  induction ps generalizing acc with
  | nil => simp
  | cons p rest ih =>
      obtain ⟨n, h⟩ := p
      simp only [List.map_cons, List.nodup_cons] at hnd
      simp only [List.foldl_cons, List.map_cons]
      have hkey : ∀ q ∈ acc, q.1 ≠ jsToLower h := by
        intro q hq heq
        exact hfresh q hq (by rw [heq]; exact List.mem_cons_self _ _)
      rw [jsSet_append_of_absent _ _ _ hkey]
      have hfresh2 : ∀ q ∈ acc ++ [(jsToLower h, row.getD n "")],
          q.1 ∉ rest.map (fun p => jsToLower p.2) := by
        intro q hq
        rcases List.mem_append.mp hq with hq1 | hq2
        · have := hfresh q hq1
          simp only [List.map_cons, List.mem_cons] at this
          exact fun hm => this (Or.inr hm)
        · have hq3 : q = (jsToLower h, row.getD n "") := by
            simpa using hq2
          rw [hq3]
          exact hnd.1
      rw [ih _ hnd.2 hfresh2, List.append_assoc]
      rfl

theorem jsGet_pairs_nodup {α : Type} (ps : List (String × α))
    (hnd : (ps.map Prod.fst).Nodup) (j : Nat) (k : String) (v : α)
    (hj : ps.get? j = some (k, v)) : jsGet ps k = some v := by
  induction ps generalizing j with
  | nil => simp at hj
  | cons p rest ih =>
      simp only [List.map_cons, List.nodup_cons] at hnd
      cases j with
      | zero =>
          simp only [List.get?] at hj
          obtain rfl : p = (k, v) := by simpa using hj
          simp [jsGet, List.find?]
      | succ j2 =>
          simp only [List.get?] at hj
          have hk : k ∈ rest.map Prod.fst := by
            have hmem : (k, v) ∈ rest := List.get?_mem hj
            exact List.mem_map.mpr ⟨(k, v), hmem, rfl⟩
          have hne : ¬ (p.1 = k) := fun he => hnd.1 (he ▸ hk)
          unfold jsGet
          rw [List.find?_cons_of_neg _ (by simpa using hne)]
          exact ih hnd.2 j2 hj

theorem normalizeRow_fields (headers row : List String) (index : Nat)
    (hnd : (headers.map jsToLower).Nodup) :
    (normalizeRow headers row index).fields =
      headers.enum.map (fun p => (jsToLower p.2, row.getD p.1 "")) := by
  have hmap : headers.enum.map (fun p => jsToLower p.2) = headers.map jsToLower := by
    rw [show (fun p : Nat × String => jsToLower p.2) =
        (jsToLower ∘ Prod.snd) from rfl, ← List.map_map, List.enum_map_snd]
  unfold normalizeRow
  exact foldl_jsSet_fresh row headers.enum []
    (by rw [hmap]; exact hnd) (by intro q hq; simp at hq)

theorem normalizeRow_get (headers row : List String) (index j : Nat) (h : String)
    (hnd : (headers.map jsToLower).Nodup) (hj : headers.get? j = some h) :
    (normalizeRow headers row index).get (jsToLower h) = some (row.getD j "") := by
  have hmap : headers.enum.map (fun p : Nat × String => jsToLower p.2) =
      headers.map jsToLower := by
    rw [show (fun p : Nat × String => jsToLower p.2) =
        (jsToLower ∘ Prod.snd) from rfl, ← List.map_map, List.enum_map_snd]
  unfold Salon.get
  rw [normalizeRow_fields _ _ _ hnd]
  refine jsGet_pairs_nodup _ ?_ j _ _ ?_
  · rw [List.map_map]
    have hcomp : (Prod.fst ∘ fun p : Nat × String =>
        (jsToLower p.2, row.getD p.1 "")) = (fun p : Nat × String => jsToLower p.2) := rfl
    rw [hcomp, hmap]
    exact hnd
  · rw [List.get?_map, List.get?_enum, hj]
    rfl

/-- C4: the normalizer yields exactly one record per data row; each record
carries rowIndex = row position + 2 (one for the header row, one for
1-based counting); each lower-cased header becomes the field key holding
the row's cell at that header's position, with a missing cell becoming the
empty string; and the spec's example row yields exactly the example record.
The header keys are assumed pairwise distinct after lower-casing (duplicate
headers would overwrite each other in source and model alike). -/
theorem c4_normalizer (headers : List String) (rows : List (List String))
    (hnd : (headers.map jsToLower).Nodup) :
    (normalizeRows headers rows).length = rows.length ∧
    (∀ k row, rows.get? k = some row →
       (normalizeRows headers rows).get? k = some (normalizeRow headers row k) ∧
       (normalizeRow headers row k).rowIndex = some (k + 2) ∧
       (∀ j h, headers.get? j = some h →
          (normalizeRow headers row k).get (jsToLower h) =
            some (row.getD j ""))) ∧
    normalizeRows ["Name", "Address", "Favorite"] [["Acme", "1 Main St", "FALSE"]] =
      [{ rowIndex := some 2,
         fields := [("name", "Acme"), ("address", "1 Main St"),
                    ("favorite", "FALSE")] }] := by
  refine ⟨?_, ?_, by decide⟩
  · unfold normalizeRows
    rw [List.length_map, List.enum_length]
  · intro k row hk
    refine ⟨?_, rfl, fun j h hj => normalizeRow_get headers row k j h hnd hj⟩
    unfold normalizeRows
    rw [List.get?_map, List.get?_enum, hk]
    rfl

theorem c4_witness :
    (normalizeRows ["Name", "Address", "Favorite"]
      [["Acme", "1 Main St", "FALSE"]]).length = 1 ∧
    (normalizeRow ["Name", "Address", "Favorite"] ["Acme", "1 Main St", "FALSE"] 0).get
        (jsToLower "Name") = some "Acme" := by
  have h := c4_normalizer ["Name", "Address", "Favorite"]
    [["Acme", "1 Main St", "FALSE"]] (by decide)
  refine ⟨h.1, ?_⟩
  have h2 := (h.2.1 0 ["Acme", "1 Main St", "FALSE"] rfl).2.2 0 "Name" rfl
  simpa using h2

theorem strContains_empty (s : String) : strContains s "" = true := by
  unfold strContains
  cases s.data with
  | nil => rfl
  | cons c rest => simp [listContains, listStarts]

/-- C5 (amended): the salon-variant filter returns exactly the records
whose lower-cased name, address or description contains the trimmed
lower-cased query, and the result is a sublist of the input (order kept,
input untouched); the AI-variant filter instead matches the lower-cased
free-text term against the lower-cased JSON serialization of the whole
record, so every field participates there. -/
theorem c5_filtering :
    (∀ (salons : List Salon) (q : String) (s : Salon),
       s ∈ filterSalons salons (jsToLower (jsTrim q)) ↔
         s ∈ salons ∧
           (strContains (jsToLower (s.getD "name")) (jsToLower (jsTrim q)) = true ∨
            strContains (jsToLower (s.getD "address")) (jsToLower (jsTrim q)) = true ∨
            strContains (jsToLower (s.getD "description")) (jsToLower (jsTrim q)) = true)) ∧
    (∀ (salons : List Salon) (q : String), (filterSalons salons q).Sublist salons) ∧
    (∀ (bs : List Business) (t : String) (b : Business),
       b ∈ filterAndRenderResults t "" false bs ↔
         b ∈ bs ∧
           (jsToLower t = "" ∨
            strContains (jsToLower (stringifyBusiness b)) (jsToLower t) = true)) := by
  refine ⟨?_, ?_, ?_⟩
  · intro salons q s
    unfold filterSalons
    by_cases hq : jsToLower (jsTrim q) = ""
    · rw [hq]
      simp [strContains_empty]
    · rw [if_neg hq, List.mem_filter]
      unfold salonMatchesQuery
      simp [Bool.or_eq_true, or_assoc]
  · intro salons q
    unfold filterSalons
    by_cases hq : q = ""
    · rw [if_pos hq]
    · rw [if_neg hq]
      exact List.filter_sublist salons
  · intro bs t b
    unfold filterAndRenderResults
    rw [List.mem_filter]
    unfold businessMatches
    by_cases ht : jsToLower t = ""
    · simp [ht, jsToLower]
    · simp [ht, jsToLower]

theorem c5_witness :
    (filterSalons [exampleSalon] "acme").Sublist [exampleSalon] :=
  c5_filtering.2.1 [exampleSalon] "acme"

/-- C5 as stated is false on the code: the AI-variant filter admits a
record whose searched query occurs only in its phone number (via the JSON
serialization of the whole record), although none of name, address or
description contains the query. -/
theorem c5_counterexample :
    filterAndRenderResults "555" "" false [phoneBusiness] = [phoneBusiness] ∧
    strContains (jsToLower (bStr phoneBusiness "name")) "555" = false ∧
    strContains (jsToLower (bStr phoneBusiness "address")) "555" = false ∧
    strContains (jsToLower (bStr phoneBusiness "description")) "555" = false := by
  refine ⟨by decide, by decide, by decide, by decide⟩

theorem socialColumns_eq (data : List Business) :
    (if data.any bHasSocial then bSocialKeys ((data.find? bHasSocial).getD [])
     else []) = csvSocialColumns data := by
  unfold csvSocialColumns
  by_cases h : data.any bHasSocial = true
  · rw [if_pos h]
    have hs : (data.find? bHasSocial).isSome := by
      rw [List.find?_isSome]
      obtain ⟨x, hx, hp⟩ := List.any_eq_true.mp h
      exact ⟨x, hx, hp⟩
    obtain ⟨d, hd⟩ := Option.isSome_iff_exists.mp hs
    rw [hd]
    rfl
  · rw [if_neg h]
    have hn : data.find? bHasSocial = none := by
      rw [List.find?_eq_none]
      intro x hx hp
      exact h (List.any_eq_true.mpr ⟨x, hx, hp⟩)
    rw [hn]

/-- C9 (amended): the CSV export of a non-empty record list is the
double-quoted header row - the first record's keys without socialMedia,
followed by the social sub-keys of the first record that has a social
object - then one row per record joined by newlines, every data cell
HTML-escaped and then double-quoted; the spec's single-record example
yields exactly its expected text. -/
theorem c9_csv_export (d0 : Business) (rest : List Business) :
    convertToCsv (d0 :: rest) =
      String.intercalate "\n"
        (String.intercalate ","
           ((((d0.map (fun p => p.1)).filter (fun k => k ≠ "socialMedia")) ++
               csvSocialColumns (d0 :: rest)).map (fun h => "\"" ++ h ++ "\"")) ::
         (d0 :: rest).map
           (csvRowSpec
             ((d0.map (fun p => p.1)).filter (fun k => k ≠ "socialMedia"))
             (csvSocialColumns (d0 :: rest)))) ∧
    convertToCsv csvExample = "\"name\",\"address\"\n\"A\",\"B\"" := by
  constructor
  · unfold convertToCsv csvRowSpec
    rw [socialColumns_eq]
  · decide

/-- C9 as stated is false on the code: when the first record has no
socialMedia object but a later record does, the produced header row
carries that later record's social sub-keys, while the claim prescribes
the header to be built from the first record's keys and its own social
sub-keys only. -/
theorem c9_counterexample :
    firstLineOf (convertToCsv csvTwoRecords) = "\"name\",\"instagram\"" ∧
    csvHeaderFromFirst csvTwoRecords = "\"name\"" ∧
    ("\"name\",\"instagram\"" : String) ≠ "\"name\"" := by
  refine ⟨by decide, by decide, by decide⟩

theorem hexDigitUpper_le (n : Nat) : (hexDigitUpper n).toNat ≤ 255 := by
  unfold hexDigitUpper
  rw [List.getD_eq_get?]
  cases hq : ("0123456789ABCDEF".data).get? n with
  | none => simp
  | some c =>
      have hc : c ∈ "0123456789ABCDEF".data := List.get?_mem hq
      have hall : ∀ x ∈ "0123456789ABCDEF".data, x.toNat ≤ 255 := by decide
      simpa using hall c hc

theorem uriUnreserved_le (c : Char) (h : uriUnreservedChar c = true) :
    c.toNat ≤ 255 := by
  unfold uriUnreservedChar at h
  simp only [Bool.or_eq_true, Bool.and_eq_true, decide_eq_true_eq] at h
  casesm* _ ∨ _, _ ∧ _
  all_goals first
    | omega
    | (subst_vars; decide)

theorem encodeURIComponent_ascii (s : String) :
    (encodeURIComponent s).data.all (fun c => c.toNat ≤ 255) = true := by
  rw [List.all_eq_true]
  intro c hc
  have hc2 : c ∈ List.flatten (s.data.map (fun c0 =>
      if uriUnreservedChar c0 then [c0]
      else List.flatten ((utf8Bytes c0).map pctEncodeByte))) := hc
  rw [List.mem_flatten] at hc2
  obtain ⟨piece, hpiece, hcp⟩ := hc2
  rw [List.mem_map] at hpiece
  obtain ⟨c0, _, rfl⟩ := hpiece
  by_cases hu : uriUnreservedChar c0 = true
  · rw [if_pos hu] at hcp
    have hcc : c = c0 := by simpa using hcp
    rw [hcc]
    simpa using uriUnreserved_le c0 hu
  · rw [if_neg hu] at hcp
    rw [List.mem_flatten] at hcp
    obtain ⟨piece2, hpiece2, hcp2⟩ := hcp
    rw [List.mem_map] at hpiece2
    obtain ⟨b, _, rfl⟩ := hpiece2
    unfold pctEncodeByte at hcp2
    simp only [List.mem_cons, List.mem_singleton] at hcp2
    rcases hcp2 with rfl | rfl | rfl | hfalse
    · decide
    · simpa using hexDigitUpper_le (b / 16)
    · simpa using hexDigitUpper_le (b % 16)
    · simp at hfalse

/-- C10: the sheet variant's identifier is partial - it is defined on every
record whose concatenated name and address stay within one-byte code
points, and it throws (models as none) on the record whose name carries a
CJK character - while the AI variant's identifier is total on every
business record because the concatenation is percent-encoded (pure ASCII)
before base64 encoding. -/
theorem c10_identifier_domain :
    (∀ s : Salon,
       (s.getD "name" ++ s.getD "address").data.all
           (fun c => c.toNat ≤ 255) = true →
       (getSalonId s).isSome = true) ∧
    getSalonId cjkSalon = none ∧
    (∀ b : Business, (getBusinessId b).isSome = true) := by
  refine ⟨?_, by decide, ?_⟩
  · intro s h
    unfold getSalonId btoa
    rw [if_pos h]
    rfl
  · intro b
    unfold getBusinessId btoa
    rw [if_pos (encodeURIComponent_ascii _)]
    rfl

theorem c10_witness :
    (getSalonId exampleSalon).isSome = true ∧
    (getBusinessId phoneBusiness).isSome = true :=
  ⟨c10_identifier_domain.1 exampleSalon (by decide),
   c10_identifier_domain.2.2 phoneBusiness⟩

theorem c9_witness :
    convertToCsv csvExample = "\"name\",\"address\"\n\"A\",\"B\"" :=
  (c9_csv_export [("name", .s "A")] []).2
